import Mathlib

/-!
Verification of the filtering / search / sort / pagination core of the
papers-with-code dashboard (src/streamlit_app.py) against its specification.

Strings are modelled as lists of characters so that the substring test used
by the search filter is a decidable, executable function.  All definitions
below are translated from the Python source; the few definitions written
from the specification's words instead are explicitly named `spec...` and
carry a doc comment saying so.
-/

namespace PWC

/-- Python strings, modelled as lists of characters. -/
abbrev Text := List Char

/-- Python `str.lower()`: lowercase every character. -/
def lowerText (s : Text) : Text := s.map Char.toLower

/-- Python whitespace characters recognised by `str.split()` (ASCII subset). -/
def isSpace (c : Char) : Bool :=
  c == ' ' || c == '\t' || c == '\n' || c == '\r' || c == '\x0b' || c == '\x0c'

/-- Helper for `pySplit`: `acc` holds the current (reversed) word. -/
def pySplitAux (acc : Text) : Text → List Text
  | [] => if acc.isEmpty then [] else [acc.reverse]
  | c :: rest =>
    if isSpace c then
      if acc.isEmpty then pySplitAux [] rest
      else acc.reverse :: pySplitAux [] rest
    else pySplitAux (c :: acc) rest

/-- Python `str.split()` with no argument: split on runs of whitespace,
never producing empty words. -/
def pySplit (s : Text) : List Text := pySplitAux [] s

/-- Python substring test `needle in hay`, which is also what
`Series.str.contains(word, regex=False)` applies elementwise. -/
def strContains : Text → Text → Bool
  | [], needle => needle.isEmpty
  | c :: t, needle => needle.isPrefixOf (c :: t) || strContains t needle

/-- A raw cell of one of the six text columns, as seen by `safe_join` in
`load_data`: Python `None`, a scalar NA (`pd.isna` true), a string, or a
list/tuple of strings. -/
inductive CellVal where
  | none
  | nan
  | str (s : Text)
  | list (xs : List Text)
deriving DecidableEq

/-- Python `" ".join(...)` over a list of strings. -/
def joinSpace : List Text → Text
  | [] => []
  | [x] => x
  | x :: y :: rest => x ++ [' '] ++ joinSpace (y :: rest)

/-- `safe_join` from `load_data`: None and scalar NA become the empty
string, lists/tuples are space-joined, anything else is `str(x)`. -/
def safe_join : CellVal → Text
  | .none => []
  | .list xs => joinSpace xs
  | .nan => []
  | .str s => s

/-- Which of the six searchable text columns exist in the loaded table. -/
structure TextCols where
  hasTitle : Bool
  hasAbstract : Bool
  hasKeywords : Bool
  hasAuthors : Bool
  hasRepoDescription : Bool
  hasCategoriesFull : Bool
deriving DecidableEq

/-- The six raw text cells of one row. -/
structure TextRow where
  title : CellVal
  abstract : CellVal
  keywords : CellVal
  authors : CellVal
  repoDescription : CellVal
  categoriesFull : CellVal
deriving DecidableEq

/-- `get_col_as_str` from `load_data`: a missing column contributes the
empty string; a present column is `safe_join`-ed then lowercased. -/
def get_col_as_str (has : Bool) (c : CellVal) : Text :=
  if has then lowerText (safe_join c) else []

/-- The `_search` column built by `load_data`: the six lowercased columns
concatenated with single-space separators. -/
def searchBlob (cols : TextCols) (r : TextRow) : Text :=
  get_col_as_str cols.hasTitle r.title ++ [' '] ++
  get_col_as_str cols.hasAbstract r.abstract ++ [' '] ++
  get_col_as_str cols.hasKeywords r.keywords ++ [' '] ++
  get_col_as_str cols.hasAuthors r.authors ++ [' '] ++
  get_col_as_str cols.hasRepoDescription r.repoDescription ++ [' '] ++
  get_col_as_str cols.hasCategoriesFull r.categoriesFull

/-- Modelled from the spec: one field of the search blob, "each field
individually lowercased", sequence-valued fields space-joined (elements
lowercased individually), null or missing fields contributing "". -/
def specFieldText (has : Bool) (c : CellVal) : Text :=
  if has then
    match c with
    | .none => []
    | .nan => []
    | .str s => lowerText s
    | .list xs => joinSpace (xs.map lowerText)
  else []

/-- Modelled from the spec: the search blob as the join of the six named
fields, each individually lowercased. -/
def specSearchBlob (cols : TextCols) (r : TextRow) : Text :=
  specFieldText cols.hasTitle r.title ++ [' '] ++
  specFieldText cols.hasAbstract r.abstract ++ [' '] ++
  specFieldText cols.hasKeywords r.keywords ++ [' '] ++
  specFieldText cols.hasAuthors r.authors ++ [' '] ++
  specFieldText cols.hasRepoDescription r.repoDescription ++ [' '] ++
  specFieldText cols.hasCategoriesFull r.categoriesFull

/-- A raw cell of a numeric column before normalization: absent, present
but unparseable (coerced to NaN by `pd.to_numeric`), or a number. -/
inductive RawNum where
  | missing
  | unparseable
  | value (n : Int)
deriving DecidableEq

/-- The numeric normalization in `load_data`:
`pd.to_numeric(col, errors="coerce").fillna(0).astype(int)`.
Missing and unparseable cells become 0; numbers pass through unchanged. -/
def normNum : RawNum → Int
  | .missing => 0
  | .unparseable => 0
  | .value n => n

/-- The `_effective_stars` computation in `load_data` (lines 91-98):
with both columns present, `stars.where(stars > 0, stars_total)`;
with exactly one present, that column; with neither, the constant 0.
`stars` and `starsTotal` are the already-normalized column values. -/
def effectiveStars (hasStars hasStarsTotal : Bool) (stars starsTotal : Int) : Int :=
  if hasStars && hasStarsTotal then (if stars > 0 then stars else starsTotal)
  else if hasStars then stars
  else if hasStarsTotal then starsTotal
  else 0

/-- Modelled from the spec: `effective_stars = stars if stars > 0 else
stars_total`, where the field of an absent source column reads as 0. -/
def specEffectiveStars (hasStars hasStarsTotal : Bool) (stars starsTotal : Int) : Int :=
  if (if hasStars then stars else 0) > 0 then (if hasStars then stars else 0)
  else (if hasStarsTotal then starsTotal else 0)

/-- The columns a sort key can map to in `filter_data`'s `sort_map`. -/
inductive Col where
  | effectiveStars
  | starsLast7d
  | starsLast30d
  | created
  | forks
  | watchers
  | repoUpdatedAt
deriving DecidableEq

/-- One normalized record as `filter_data` sees it.  Timestamps are
modelled as seconds (an integer); numeric popularity columns are plain
integers after normalization; `language` and the two timestamp columns
may hold nulls. -/
structure Row where
  language : Option Text
  search : Text
  created : Option Int
  effectiveStars : Int
  starsLast7d : Int
  starsLast30d : Int
  forks : Int
  watchers : Int
  repoUpdatedAt : Option Int
deriving DecidableEq

/-- The normalized table passed to `filter_data`: its rows in snapshot
order plus which optional columns exist (`"col" in df.columns` checks).
The `_search` column always exists after `load_data`. -/
structure DataFrame where
  rows : List Row
  hasLanguage : Bool
  hasCreated : Bool
  hasEffectiveStars : Bool
  hasStarsLast7d : Bool
  hasStarsLast30d : Bool
  hasForks : Bool
  hasWatchers : Bool
  hasRepoUpdatedAt : Bool
deriving DecidableEq

/-- Whether a sortable column is present in the table. -/
def DataFrame.colPresent (df : DataFrame) : Col → Bool
  | .effectiveStars => df.hasEffectiveStars
  | .starsLast7d => df.hasStarsLast7d
  | .starsLast30d => df.hasStarsLast30d
  | .created => df.hasCreated
  | .forks => df.hasForks
  | .watchers => df.hasWatchers
  | .repoUpdatedAt => df.hasRepoUpdatedAt

/-- A row's value in a sortable column; `none` models NaT in the two
timestamp columns (the integer columns never hold nulls after
normalization). -/
def sortVal (r : Row) : Col → Option Int
  | .effectiveStars => some r.effectiveStars
  | .starsLast7d => some r.starsLast7d
  | .starsLast30d => some r.starsLast30d
  | .created => r.created
  | .forks => some r.forks
  | .watchers => some r.watchers
  | .repoUpdatedAt => r.repoUpdatedAt

/-- The literal string "All". -/
def allText : Text := "All".toList

/-- Seconds per calendar day, for extracting the date of a timestamp. -/
def dateOf (t : Int) : Int := Int.fdiv t 86400

/-- The `sort_map` dictionary of `filter_data` together with the
`.get(sort_by, ("_effective_stars", False))` default.  The boolean is the
`ascending` flag passed to the sort. -/
def sortMap (sortBy : Text) : Col × Bool :=
  if sortBy = "Stars (Total)".toList then (.effectiveStars, false)
  else if sortBy = "Stars (7 days)".toList then (.starsLast7d, false)
  else if sortBy = "Stars (30 days)".toList then (.starsLast30d, false)
  else if sortBy = "Newest First".toList then (.created, false)
  else if sortBy = "Oldest First".toList then (.created, true)
  else if sortBy = "Forks".toList then (.forks, false)
  else if sortBy = "Watchers".toList then (.watchers, false)
  else if sortBy = "Repo Updated (Recent)".toList then (.repoUpdatedAt, false)
  else if sortBy = "Repo Updated (Oldest)".toList then (.repoUpdatedAt, true)
  else (.effectiveStars, false)

/-- The language mask step of `filter_data`: active only when the selected
language differs from "All" and the column exists; nulls are read as ""
by `fillna("")` before the exact comparison. -/
def langMask (df : DataFrame) (language : Text) (r : Row) : Bool :=
  if language ≠ allText ∧ df.hasLanguage then decide (r.language.getD [] = language)
  else true

/-- The text-search mask step of `filter_data`: skipped for the empty
search string, otherwise every whitespace-split word of the lowercased
search text must be a substring of the row's `_search` blob. -/
def searchMask (search : Text) (r : Row) : Bool :=
  if search.isEmpty then true
  else (pySplit (lowerText search)).all fun w => strContains r.search w

/-- The date mask step of `filter_data`: active only when a range is given
and the `created` column exists; compares calendar dates inclusively, and
a null `created` fails both comparisons (pandas NaT comparisons are
false). -/
def dateMask (df : DataFrame) (dateRange : Option (Int × Int)) (r : Row) : Bool :=
  match dateRange with
  | .none => true
  | .some se =>
    if df.hasCreated then
      match r.created with
      | .none => false
      | .some t => decide (se.1 ≤ dateOf t) && decide (dateOf t ≤ se.2)
    else true

/-- The conjunction of the three mask steps (the `mask` series built by
`filter_data` before `df.loc[mask]`). -/
def rowMask (df : DataFrame) (search language : Text)
    (dateRange : Option (Int × Int)) (r : Row) : Bool :=
  langMask df language r && searchMask search r && dateMask df dateRange r

/-- The comparison used when sorting on column `col`: ascending or
descending on the column value.  Only rows with non-null values are ever
compared (nulls are split off first), so the default in `getD` is
irrelevant. -/
def sortLeB (col : Col) (asc : Bool) (a b : Row) : Bool :=
  if asc then decide ((sortVal a col).getD 0 ≤ (sortVal b col).getD 0)
  else decide ((sortVal b col).getD 0 ≤ (sortVal a col).getD 0)

/-- Insert a row into a sorted list, before the first element it compares
`le` to (so an element inserted from the left of its equals stays left:
a stable insertion used below). -/
def insertRow (le : Row → Row → Bool) (r : Row) : List Row → List Row
  | [] => [r]
  | x :: xs => if le r x then r :: x :: xs else x :: insertRow le r xs

/-- Insertion sort over rows (stable). -/
def insertionSortRows (le : Row → Row → Bool) : List Row → List Row
  | [] => []
  | x :: xs => insertRow le x (insertionSortRows le xs)

/-- Model of `filtered.sort_values(col, ascending=asc, na_position="last")`:
rows with a null sort value are moved after all others, keeping their
original relative order, and the remaining rows are sorted on the column.
The engine is modelled as a stable sort; the source leaves `kind` at the
pandas default `quicksort`, whose order among tied keys is decided inside
numpy, so only tie-order-insensitive facts are proved about this. -/
def sortRows (col : Col) (asc : Bool) (rows : List Row) : List Row :=
  insertionSortRows (sortLeB col asc) (rows.filter fun r => (sortVal r col).isSome)
    ++ rows.filter fun r => (sortVal r col).isNone

/-- `filter_data` from the source: apply the three masks, then sort by the
mapped column when the table has it, else leave the filtered rows in
snapshot order. -/
def filter_data (df : DataFrame) (search language sortBy : Text)
    (dateRange : Option (Int × Int)) : List Row :=
  let filtered := df.rows.filter (rowMask df search language dateRange)
  if df.colPresent (sortMap sortBy).1 then
    sortRows (sortMap sortBy).1 (sortMap sortBy).2 filtered
  else filtered

/-- The fixed page size of the pagination block. -/
def pageSize : Nat := 48

/-- `total_pages = max(1, math.ceil(len(filtered) / page_size))`. -/
def totalPages (count : Nat) : Nat := max 1 ((count + pageSize - 1) / pageSize)

/-- The page slice `filtered.iloc[(page-1)*48 : page*48]` served for a
requested page number (pages count from 1). -/
def pageSlice (rows : List Row) (page : Nat) : List Row :=
  (rows.drop ((page - 1) * pageSize)).take pageSize

/-- The executable substring test agrees with list-infix. -/
theorem strContains_iff (hay needle : Text) :
    strContains hay needle = true ↔ needle <:+: hay := by
  induction hay with
  | nil => simp [strContains, List.isEmpty_iff]
  | cons c t ih => simp [strContains, ih, List.infix_cons_iff]

/-- Membership through a stable insertion. -/
theorem mem_insertRow (le : Row → Row → Bool) (r a : Row) (l : List Row) :
    a ∈ insertRow le r l ↔ a = r ∨ a ∈ l := by
  induction l with
  | nil => simp [insertRow]
  | cons x xs ih =>
    simp only [insertRow]
    split
    · simp
    · simp [ih]; tauto

/-- Membership through the insertion sort. -/
theorem mem_insertionSortRows (le : Row → Row → Bool) (a : Row) (l : List Row) :
    a ∈ insertionSortRows le l ↔ a ∈ l := by
  induction l with
  | nil => simp [insertionSortRows]
  | cons x xs ih => simp [insertionSortRows, mem_insertRow, ih]

/-- Sorting permutes: membership is unchanged by `sortRows`. -/
theorem mem_sortRows (col : Col) (asc : Bool) (a : Row) (l : List Row) :
    a ∈ sortRows col asc l ↔ a ∈ l := by
  simp only [sortRows, List.mem_append, mem_insertionSortRows, List.mem_filter]
  cases h : sortVal a col <;> simp [h]

/-- A row is in the output of `filter_data` exactly when it is an input
row passing all three masks. -/
theorem mem_filter_data (df : DataFrame) (s l k : Text) (d : Option (Int × Int)) (r : Row) :
    r ∈ filter_data df s l k d ↔ r ∈ df.rows ∧ rowMask df s l d r = true := by
  simp only [filter_data]
  split
  · rw [mem_sortRows]; exact List.mem_filter
  · exact List.mem_filter

/-- The search mask holds exactly when every whitespace-split word of the
lowercased search text is an infix of the row's search blob. -/
theorem searchMask_iff (search : Text) (r : Row) :
    searchMask search r = true ↔
      ∀ w ∈ pySplit (lowerText search), w <:+: r.search := by
  unfold searchMask
  split
  · rename_i h
    have hs : search = [] := by simpa [List.isEmpty_iff] using h
    subst hs
    simp [pySplit, pySplitAux, lowerText]
  · simp [List.all_eq_true, strContains_iff]

/-- Sample record: a Go repository paper created on day 1. -/
def rowA : Row :=
  ⟨some "go".toList, "graph neural network".toList, some 100000, 10, 1, 2, 3, 4, some 5⟩

/-- Sample record with every optional field null. -/
def rowNoLang : Row := ⟨none, [], none, 0, 0, 0, 0, 0, none⟩

/-- Sample table with every column present. -/
def dfFull : DataFrame := ⟨[rowA, rowNoLang], true, true, true, true, true, true, true, true⟩

/-- Sample table whose forks column is absent. -/
def dfNoForks : DataFrame :=
  ⟨[rowA, rowNoLang], true, true, true, true, true, false, true, true⟩

/-- Lowercasing commutes with space-joining a list of strings. -/
theorem lowerText_joinSpace (xs : List Text) :
    lowerText (joinSpace xs) = joinSpace (xs.map lowerText) := by
  induction xs with
  | nil => rfl
  | cons x ys ih =>
    cases ys with
    | nil => rfl
    | cons y rest =>
      have hsp : lowerText [' '] = [' '] := by decide
      simp only [joinSpace, List.map_cons]
      calc lowerText (x ++ [' '] ++ joinSpace (y :: rest))
          = lowerText x ++ lowerText [' '] ++ lowerText (joinSpace (y :: rest)) := by
            simp [lowerText]
        _ = lowerText x ++ [' '] ++ joinSpace (lowerText y :: rest.map lowerText) := by
            rw [hsp, ih]; simp

/-- Lowercasing the empty string gives the empty string. -/
theorem lowerText_nil : lowerText [] = [] := rfl

/-- C1 as stated is false: with the stars column present, the stars_total
column absent, and a negative stars value, `_effective_stars` is that
negative value, while the claimed rule (reading the absent field as 0)
gives 0. -/
theorem effectiveStars_spec_rule_fails :
    ¬ ∀ (hs hst : Bool) (s t : Int),
        effectiveStars hs hst s t = specEffectiveStars hs hst s t := by
  intro h
  exact absurd (h true false (-5) 7) (by decide)

/-- C1 (amended): the derived `_effective_stars` equals `stars` when
`stars > 0` and `stars_total` otherwise (an absent source column's field
reading as 0), provided `stars` is non-negative whenever the stars column
is present without stars_total; with neither column it is 0. -/
theorem effectiveStars_matches_spec_rule (hs hst : Bool) (s t : Int)
    (h : hs = true → hst = false → 0 ≤ s) :
    effectiveStars hs hst s t = specEffectiveStars hs hst s t := by
  cases hs <;> cases hst <;>
    simp_all [effectiveStars, specEffectiveStars] <;>
    split_ifs <;> omega

/-- Witness for the amended C1 at a concrete record. -/
theorem effectiveStars_matches_spec_rule_witness :
    effectiveStars true false 4 9 = specEffectiveStars true false 4 9 :=
  effectiveStars_matches_spec_rule true false 4 9 (fun _ _ => by decide)

/-- C3 as stated is false: the numeric normalization passes a negative
raw value through unchanged, so its output is not always non-negative. -/
theorem normNum_not_always_nonneg : ¬ ∀ raw : RawNum, 0 ≤ normNum raw := by
  intro h
  exact absurd (h (RawNum.value (-1))) (by decide)

/-- C3 (amended): normalization sends absent and unparseable cells to 0,
and whenever the raw popularity values are non-negative, so are the
normalized values and the derived `_effective_stars`. -/
theorem normNum_nonneg_of_nonneg_raw (hs hst : Bool) (s t : RawNum)
    (h1 : ∀ n, s = RawNum.value n → 0 ≤ n) (h2 : ∀ n, t = RawNum.value n → 0 ≤ n) :
    0 ≤ normNum s ∧ 0 ≤ normNum t ∧
      0 ≤ effectiveStars hs hst (normNum s) (normNum t) := by
  have hs0 : 0 ≤ normNum s := by cases s <;> simp [normNum] <;> exact h1 _ rfl
  have ht0 : 0 ≤ normNum t := by cases t <;> simp [normNum] <;> exact h2 _ rfl
  refine ⟨hs0, ht0, ?_⟩
  unfold effectiveStars
  split_ifs <;> omega

/-- Witness for the amended C3 at concrete raw cells. -/
theorem normNum_nonneg_witness :
    0 ≤ normNum (RawNum.value 3) ∧ 0 ≤ normNum RawNum.missing ∧
      0 ≤ effectiveStars true false (normNum (RawNum.value 3)) (normNum RawNum.missing) :=
  normNum_nonneg_of_nonneg_raw true false (RawNum.value 3) RawNum.missing
    (fun n h => by cases h; decide) (fun n h => by cases h)

/-- C5: the `_search` blob built by `load_data` is exactly the join of the
six named fields with each field individually lowercased, sequence fields
space-joined, and null or missing fields contributing the empty string. -/
theorem searchBlob_eq_specSearchBlob (cols : TextCols) (r : TextRow) :
    searchBlob cols r = specSearchBlob cols r := by
  have field : ∀ (has : Bool) (c : CellVal), get_col_as_str has c = specFieldText has c := by
    intro has c
    cases has <;> cases c <;>
      simp [get_col_as_str, specFieldText, safe_join, lowerText_joinSpace, lowerText_nil]
  simp [searchBlob, specSearchBlob, field]

/-- C4: with the other filters inactive, a record is returned by `query`
exactly when every word of the lowercased, whitespace-split search text is
a literal substring of its search blob (soundness and completeness of the
conjunctive, case-insensitive text search). -/
theorem mem_filter_data_search_iff (df : DataFrame) (search sortBy : Text) (r : Row) :
    r ∈ filter_data df search allText sortBy none ↔
      r ∈ df.rows ∧ ∀ w ∈ pySplit (lowerText search), w <:+: r.search := by
  rw [mem_filter_data]
  simp [rowMask, langMask, dateMask, Bool.and_eq_true, searchMask_iff]

/-- C6: over a table that has the created column, an active range
[start, end] keeps exactly the records whose created calendar date lies in
the inclusive range (records with null created are excluded), and with no
range active no record is excluded by the date filter. -/
theorem date_filter_range_membership (df : DataFrame) (sortBy : Text) (s e : Int) (r : Row)
    (h : df.hasCreated = true) :
    (r ∈ filter_data df [] allText sortBy (some (s, e)) ↔
      r ∈ df.rows ∧ ∃ t, r.created = some t ∧ s ≤ dateOf t ∧ dateOf t ≤ e)
    ∧ (r ∈ filter_data df [] allText sortBy none ↔ r ∈ df.rows) := by
  constructor
  · rw [mem_filter_data]
    cases hc : r.created <;>
      simp [rowMask, langMask, dateMask, searchMask, h, hc]
  · rw [mem_filter_data]
    simp [rowMask, langMask, dateMask, searchMask]

/-- Witness for C6 at a concrete record and range. -/
theorem date_filter_range_membership_witness :
    rowA ∈ filter_data dfFull [] allText "Newest First".toList (some (0, 10)) ↔
      rowA ∈ dfFull.rows ∧ ∃ t, rowA.created = some t ∧ 0 ≤ dateOf t ∧ dateOf t ≤ 10 :=
  (date_filter_range_membership dfFull "Newest First".toList 0 10 rowA rfl).1

/-- C8 as stated is false: the language filter compares after
`fillna("")`, so when the selected language is the empty string (which
differs from "All") a record with missing language is returned instead of
being excluded. -/
theorem language_filter_missing_not_always_excluded :
    ¬ ∀ (df : DataFrame) (lang sortBy : Text) (r : Row),
        df.hasLanguage = true → lang ≠ allText →
        r ∈ filter_data df [] lang sortBy none → r.language ≠ none := by
  intro h
  exact h dfFull [] "Newest First".toList rowNoLang rfl (by decide) (by decide) rfl

/-- C8 (amended): over a table that has the language column, a filter
other than "All" keeps exactly the records whose language, with nulls read
as the empty string, equals the filter exactly; hence missing-language
records are excluded whenever the filter is also nonempty; the filter
"All" excludes nothing. -/
theorem language_filter_membership (df : DataFrame) (lang sortBy : Text) (r : Row)
    (h : df.hasLanguage = true) :
    (lang ≠ allText →
      (r ∈ filter_data df [] lang sortBy none ↔
        r ∈ df.rows ∧ r.language.getD [] = lang))
    ∧ (lang ≠ allText → lang ≠ [] → r.language = none →
        r ∉ filter_data df [] lang sortBy none)
    ∧ (lang = allText →
      (r ∈ filter_data df [] lang sortBy none ↔ r ∈ df.rows)) := by
  refine ⟨fun hne => ?_, fun hne hne2 hnone => ?_, fun hall => ?_⟩
  · rw [mem_filter_data]
    simp [rowMask, langMask, dateMask, searchMask, h, hne]
  · rw [mem_filter_data]
    simp [rowMask, langMask, dateMask, searchMask, h, hne, hnone]
    intro _ hl
    exact hne2 hl
  · subst hall
    rw [mem_filter_data]
    simp [rowMask, langMask, dateMask, searchMask]

/-- Witness for the amended C8 at a concrete record and language. -/
theorem language_filter_membership_witness :
    rowA ∈ filter_data dfFull [] "go".toList "Forks".toList none ↔
      rowA ∈ dfFull.rows ∧ rowA.language.getD [] = "go".toList :=
  (language_filter_membership dfFull "go".toList "Forks".toList rowA rfl).1 (by decide)

/-- C9: `query` is deterministic — equal inputs give equal outputs; the
model is a pure function of the table and the filter specification. -/
theorem filter_data_deterministic (df₁ df₂ : DataFrame) (s₁ s₂ l₁ l₂ k₁ k₂ : Text)
    (d₁ d₂ : Option (Int × Int))
    (hdf : df₁ = df₂) (hs : s₁ = s₂) (hl : l₁ = l₂) (hk : k₁ = k₂) (hd : d₁ = d₂) :
    filter_data df₁ s₁ l₁ k₁ d₁ = filter_data df₂ s₂ l₂ k₂ d₂ := by
  subst hdf hs hl hk hd
  rfl

/-- Witness for C9 at concrete inputs. -/
theorem filter_data_deterministic_witness :
    filter_data dfFull [] allText "Forks".toList none =
      filter_data dfFull [] allText "Forks".toList none :=
  filter_data_deterministic dfFull dfFull [] [] allText allText
    "Forks".toList "Forks".toList none none rfl rfl rfl rfl rfl

/-- C10: when the column a sort key maps to is absent from the table,
`query` skips the sort entirely and returns the filtered records in their
original snapshot order. -/
theorem filter_data_skips_sort_when_col_absent (df : DataFrame) (s l k : Text)
    (d : Option (Int × Int)) (h : df.colPresent (sortMap k).1 = false) :
    filter_data df s l k d = df.rows.filter (rowMask df s l d) := by
  simp [filter_data, h]

/-- Witness for C10: sorting by forks over a table without a forks
column. -/
theorem filter_data_skips_sort_witness :
    dfNoForks.colPresent (sortMap "Forks".toList).1 = false ∧
      filter_data dfNoForks [] allText "Forks".toList none =
        dfNoForks.rows.filter (rowMask dfNoForks [] allText none) :=
  ⟨by decide,
    filter_data_skips_sort_when_col_absent dfNoForks [] allText "Forks".toList none
      (by decide)⟩

/-- Concatenating the first k page slices gives the first k*48 records. -/
theorem pageSlice_flatten_take (rows : List Row) (k : Nat) :
    ((List.range k).map fun i => pageSlice rows (i + 1)).flatten
      = rows.take (k * pageSize) := by
  induction k with
  | zero => simp
  | succ n ih =>
    rw [List.range_succ, List.map_append, List.flatten_append, ih]
    simp only [List.map_cons, List.map_nil, List.flatten_cons, List.flatten_nil,
      List.append_nil]
    rw [Nat.succ_mul, List.take_add]
    simp [pageSlice]

/-- The page count times the page size covers the whole list. -/
theorem length_le_totalPages_mul (n : Nat) : n ≤ totalPages n * pageSize := by
  unfold totalPages pageSize
  omega

/-- C7 as stated is false: the served slice is computed from the stored
page number without clamping it to [1, total_pages]; a one-record result
requested at page 2 yields the empty slice, where the claimed clamping
would yield page 1 again. -/
theorem pagination_not_clamped :
    ¬ ∀ (rows : List Row) (page : Nat), 1 ≤ page →
        pageSlice rows page = pageSlice rows (min page (totalPages rows.length)) := by
  intro h
  exact absurd (h [rowA] 2 (by decide)) (by decide)

/-- C7 (amended): total_pages is ceil(count/48) with minimum 1; each page
p serves the contiguous slice [(p-1)*48, p*48), so the slices of pages
1..total_pages concatenate back to the whole result (their sizes sum to
the count), the last page holds count - (total_pages-1)*48 records, and a
stored page beyond total_pages serves the empty slice rather than being
clamped. -/
theorem pagination_slices_partition (rows : List Row) :
    ((List.range (totalPages rows.length)).map fun i => pageSlice rows (i + 1)).flatten
        = rows
    ∧ (pageSlice rows (totalPages rows.length)).length
        = rows.length - (totalPages rows.length - 1) * pageSize
    ∧ ∀ p, totalPages rows.length < p → pageSlice rows p = [] := by
  refine ⟨?_, ?_, fun p hp => ?_⟩
  · rw [pageSlice_flatten_take, List.take_of_length_le (length_le_totalPages_mul _)]
  · have hcov := length_le_totalPages_mul rows.length
    have hlast : rows.length - (totalPages rows.length - 1) * pageSize ≤ pageSize := by
      unfold totalPages pageSize at *
      omega
    simp only [pageSlice, List.length_take, List.length_drop]
    omega
  · have : rows.length ≤ (p - 1) * pageSize := by
      unfold totalPages pageSize at hp
      unfold pageSize
      omega
    rw [pageSlice, List.drop_eq_nil_of_le this, List.take_nil]

/-- Witness for the amended C7: with one record there is one page, and
page 2 is served empty. -/
theorem pagination_slices_partition_witness :
    totalPages ([rowA].length) < 2 ∧ pageSlice [rowA] 2 = [] :=
  ⟨by decide, (pagination_slices_partition [rowA]).2.2 2 (by decide)⟩

end PWC
